import Mathlib

/-!
Verification of the team task-board core (streamlit_app.py): entity store,
dependency resolver, schedule normalizer, workload aggregator and status cycle.
Calendar dates are modelled as integers counting days, so that Python
subtraction `(e - s).days` becomes integer subtraction and date comparison
becomes integer comparison.
-/

namespace TeamBoards

abbrev Date := Int

structure Member where
  id : String
  name : String
  email : String
deriving DecidableEq

structure Board where
  id : String
  name : String
  description : String
deriving DecidableEq

structure Group where
  id : String
  board_id : String
  name : String
  position : Int
deriving DecidableEq

structure Item where
  id : String
  board_id : String
  group_id : String
  title : String
  description : String
  status : String
  start_date : Option Date
  due_date : Option Date
  timeline_start : Option Date
  timeline_end : Option Date
  created_by : Option String
deriving DecidableEq

/-- The in-memory session store: the four entity tables (Python dicts,
modelled as association lists keyed by id, in insertion order) and the two
relation sets. -/
structure Store where
  team_members : List (String × Member)
  boards : List (String × Board)
  groups : List (String × Group)
  items : List (String × Item)
  item_assignments : Finset (String × String)
  item_dependencies : Finset (String × String)
deriving DecidableEq

/-- Python dict lookup `table.get(k)`: first (and only, keys being unique)
entry with the given key. -/
def dget {α : Type} (table : List (String × α)) (k : String) : Option α :=
  match table with
  | [] => none
  | e :: rest => if e.1 = k then some e.2 else dget rest k

def STATUS_CHOICES : List String :=
  ["Not started", "In progress", "Blocked", "Done"]

/-- `assign(item_id, user_id)`: unconditional set insert, no existence check
on either id (source line 88-89). -/
def assign (s : Store) (item_id user_id : String) : Store :=
  { s with item_assignments := insert (item_id, user_id) s.item_assignments }

/-- `unassign(item_id, user_id)`: set discard. -/
def unassign (s : Store) (item_id user_id : String) : Store :=
  { s with item_assignments := s.item_assignments.erase (item_id, user_id) }

/-- `dep_add(item_id, depends_on_id)`: inserts unless the edge is a
self-loop; no existence check on either id (source line 94-96). -/
def dep_add (s : Store) (item_id depends_on_id : String) : Store :=
  if item_id ≠ depends_on_id then
    { s with item_dependencies := insert (item_id, depends_on_id) s.item_dependencies }
  else s

/-- `dep_clear_for_item(item_id)`: drops outgoing edges only. -/
def dep_clear_for_item (s : Store) (item_id : String) : Store :=
  { s with item_dependencies :=
      s.item_dependencies.filter (fun p => p.1 ≠ item_id) }

/-- Body of the loop in `item_is_blocked`: a dependency target is
unsatisfied when it is missing from the item table or its status is not
"Done" (`if not dep_item or dep_item["status"] != "Done"`). -/
def dep_unsatisfied (items : List (String × Item)) (dep_id : String) : Bool :=
  match dget items dep_id with
  | none => true
  | some it => it.status ≠ "Done"

/-- The `deps` local of `item_is_blocked` (source line 103): the outgoing
dependency edges of the item. -/
def outgoing (s : Store) (item_id : String) : Finset (String × String) :=
  s.item_dependencies.filter (fun q => q.1 = item_id)

/-- `item_is_blocked(item_id)` (source lines 101-111): with no outgoing
edges the item is not blocked, otherwise it is blocked exactly when some
collected target is unsatisfied. -/
def item_is_blocked (s : Store) (item_id : String) : Bool :=
  if outgoing s item_id = ∅ then false
  else decide (∃ p ∈ outgoing s item_id, dep_unsatisfied s.items p.2 = true)

/-- `list.index(x)` as an option: position of the first occurrence. -/
def index_of (l : List String) (x : String) : Option Nat :=
  match l with
  | [] => none
  | y :: ys => if y = x then some 0 else (index_of ys x).map (· + 1)

/-- `next_status(status)` (source lines 113-115): `STATUS_CHOICES.index`
raises ValueError on a string outside the list, modelled as `none`. -/
def next_status (status : String) : Option String :=
  (index_of STATUS_CHOICES status).map
    (fun idx => STATUS_CHOICES.getD ((idx + 1) % STATUS_CHOICES.length) "")

/-- Python `a or b` on optional dates: a date value is always truthy. -/
def pyOr (a b : Option Date) : Option Date :=
  match a with
  | some x => some x
  | none => b

/-- The shared raw fallback chain `timeline_start or start_date or due_date`
(source lines 125, 389, 435). -/
def rawStart (it : Item) : Option Date :=
  pyOr it.timeline_start (pyOr it.start_date it.due_date)

/-- The shared raw fallback chain `timeline_end or due_date or start_date`
(source lines 126, 390, 436). -/
def rawEnd (it : Item) : Option Date :=
  pyOr it.timeline_end (pyOr it.due_date it.start_date)

/-- `item_effort_days(item)` (source lines 124-133): both endpoints absent
returns 1; a single absent endpoint is copied from the present one; then
`max(1, (end - start).days + 1)`. -/
def item_effort_days (item : Item) : Int :=
  match rawStart item, rawEnd item with
  | none, none => 1
  | some s, none => max 1 ((s - s) + 1)
  | none, some e => max 1 ((e - e) + 1)
  | some s, some e => max 1 ((e - s) + 1)

/-- Delete handler of the Table tab (source lines 346-352): pop the item,
drop every assignment tuple whose first component is the item and every
dependency tuple mentioning it in either position, in one step. -/
def delete_item (s : Store) (item_id : String) : Store :=
  { s with
    items := s.items.filter (fun p => p.1 ≠ item_id)
    item_assignments := s.item_assignments.filter (fun p => p.1 ≠ item_id)
    item_dependencies :=
      s.item_dependencies.filter (fun p => p.1 ≠ item_id ∧ p.2 ≠ item_id) }

/-- Effective (start, end) window used by the Workload tab (source lines
435-442): fallback chains, then collapse to `today` when both absent, then
copy the present endpoint over the missing one. -/
def item_window (today : Date) (it : Item) : Date × Date :=
  match rawStart it, rawEnd it with
  | none, none => (today, today)
  | some s, none => (s, s)
  | none, some e => (e, e)
  | some s, some e => (s, e)

/-- Per-item overlap contribution in the Workload tab (source lines
443-450): `days` is the inclusive day count when the clipped interval is
nonempty, else 0, finally clamped with `max(0, days)`. -/
def overlap_days (today wstart wend : Date) (it : Item) : Int :=
  let se := item_window today it
  let days : Int :=
    if max se.1 wstart ≤ min se.2 wend
    then (min se.2 wend - max se.1 wstart) + 1
    else 0
  max 0 days

/-- Items of the current board, in table order (source line 246). -/
def board_items (s : Store) (bid : String) : List Item :=
  (s.items.filter (fun p => p.2.board_id = bid)).map Prod.snd

/-- Inner loop of the Workload tab for one member: sum the overlap days of
the board items assigned to that member (source lines 431-450). -/
def member_load (s : Store) (today wstart wend : Date) (its : List Item)
    (uid : String) : Int :=
  (its.filter (fun it => (it.id, uid) ∈ s.item_assignments)).foldl
    (fun load it => load + overlap_days today wstart wend it) 0

/-- The Workload tab computation (source lines 424-451): when the window is
inverted it only emits a warning and computes nothing, modelled as an error
value; otherwise one row per team member. -/
def workload (s : Store) (today : Date) (bid : String) (wstart wend : Date) :
    Except String (List (String × Int)) :=
  if wstart > wend then Except.error "Start must be before end."
  else Except.ok (s.team_members.map (fun p =>
    (p.2.name, member_load s today wstart wend (board_items s bid) p.1)))

/-- Kanban move-button gate (source line 373):
`disabled = blocked and next_status(lane) in ("In progress", "Done")`. -/
def move_disabled (s : Store) (item_id lane : String) : Bool :=
  item_is_blocked s item_id &&
    decide (next_status lane = some "In progress" ∨ next_status lane = some "Done")

/-- The serialized snapshot built by the Export button (source lines
168-175): the four tables as they stand and the two relation sets as lists
of 2-element lists. Date values cross the JSON boundary as ISO-8601 strings
(pandas codec, outside this repository); that codec is lossless on calendar
dates, so a wire date is modelled by the `Option Date` it denotes. -/
structure Blob where
  team_members : List (String × Member)
  boards : List (String × Board)
  groups : List (String × Group)
  items : List (String × Item)
  item_assignments : List (List String)
  item_dependencies : List (List String)
deriving DecidableEq

/-- `list(map(list, relation_set))`: Python set iteration order is
arbitrary, so the export takes the enumerations of the two sets as inputs,
constrained only to enumerate the right sets. -/
def export_blob (s : Store) (aL dL : List (String × String)) : Blob :=
  { team_members := s.team_members
    boards := s.boards
    groups := s.groups
    items := s.items
    item_assignments := aL.map (fun p => [p.1, p.2])
    item_dependencies := dL.map (fun p => [p.1, p.2]) }

/-- Import parsing of one date field (source lines 190-194):
`if v.get(key): v[key] = pd.to_datetime(v[key]).date() else v[key] = None`.
A present wire date is a nonempty ISO string, hence truthy, and parses back
to the calendar date it denotes; an absent one stays `None`. -/
def parse_date_field (v : Option Date) : Option Date :=
  match v with
  | some d => some d
  | none => none

/-- Import rebuilding of one item record (source lines 188-195): only the
four date fields are reassigned. -/
def import_item (v : Item) : Item :=
  { v with
    start_date := parse_date_field v.start_date
    due_date := parse_date_field v.due_date
    timeline_start := parse_date_field v.timeline_start
    timeline_end := parse_date_field v.timeline_end }

/-- `tuple(l)` on a serialized 2-element relation entry. -/
def list_to_pair (l : List String) : String × String :=
  (l.getD 0 "", l.getD 1 "")

/-- The Import handler (source lines 183-198): rebuild the four tables,
re-parse item dates, and rebuild the two relation sets from the lists. -/
def import_blob (b : Blob) : Store :=
  { team_members := b.team_members
    boards := b.boards
    groups := b.groups
    items := b.items.map (fun p => (p.1, import_item p.2))
    item_assignments := (b.item_assignments.map list_to_pair).toFinset
    item_dependencies := (b.item_dependencies.map list_to_pair).toFinset }

/-- Modelled from the claim for refinement: the closed-form overlap
contribution `max(0, (min(item_end, window_end) - max(item_start,
window_start)).days + 1)`, to be compared with `overlap_days` above. -/
def overlapDaysSpec (today wstart wend : Date) (it : Item) : Int :=
  max 0 ((min (item_window today it).2 wend - max (item_window today it).1 wstart) + 1)

/-! Concrete fixtures used by the witness theorems. -/

def mkItem (iid bid stat : String) (sd dd ts te : Option Date) : Item :=
  { id := iid, board_id := bid, group_id := "g", title := iid, description := "",
    status := stat, start_date := sd, due_date := dd,
    timeline_start := ts, timeline_end := te, created_by := none }

def sampleStore : Store :=
  { team_members := [("m1", ⟨"m1", "Alice", "alice@team.local"⟩)]
    boards := [("b1", ⟨"b1", "Sample", ""⟩)]
    groups := [("g1", ⟨"g1", "b1", "Backlog", 0⟩)]
    items := [("x", mkItem "x" "b1" "Done" none none none none),
              ("y", mkItem "y" "b1" "In progress" (some 5) (some 20) none none)]
    item_assignments := {("y", "m1"), ("x", "m1")}
    item_dependencies := {("y", "x")} }

/-- A store in which item x depends on an item that is not Done. -/
def blockedStore : Store :=
  { sampleStore with item_dependencies := {("x", "y")} }

/-- A store in which item x depends on a target missing from the table. -/
def missingDepStore : Store :=
  { sampleStore with item_dependencies := {("x", "ghost")} }

def emptyStore : Store :=
  { team_members := [], boards := [], groups := [], items := [],
    item_assignments := ∅, item_dependencies := ∅ }

/-! Helper lemmas shared across the development. -/

theorem dep_unsatisfied_iff (items : List (String × Item)) (d : String) :
    dep_unsatisfied items d = true ↔
      (dget items d = none ∨
        ∃ it, dget items d = some it ∧ it.status ≠ "Done") := by
  cases h : dget items d with
  | none => simp [dep_unsatisfied, h]
  | some it => simp [dep_unsatisfied, h]

theorem dep_satisfied_iff (items : List (String × Item)) (d : String) :
    dep_unsatisfied items d = false ↔
      ∃ it, dget items d = some it ∧ it.status = "Done" := by
  cases h : dget items d with
  | none => simp [dep_unsatisfied, h]
  | some it => simp [dep_unsatisfied, h]

theorem blocked_exists_unsat (s : Store) (iid : String)
    (h : outgoing s iid ≠ ∅) :
    item_is_blocked s iid = true ↔
      ∃ d, (iid, d) ∈ s.item_dependencies ∧ dep_unsatisfied s.items d = true := by
  simp only [item_is_blocked, if_neg h, decide_eq_true_eq]
  constructor
  · rintro ⟨p, hp, hu⟩
    rcases Finset.mem_filter.mp hp with ⟨hmem, hfst⟩
    refine ⟨p.2, ?_, hu⟩
    have hpe : (iid, p.2) = p := by rw [← hfst]
    rw [hpe]; exact hmem
  · rintro ⟨d, hmem, hu⟩
    exact ⟨(iid, d), Finset.mem_filter.mpr ⟨hmem, rfl⟩, hu⟩

theorem index_of_eq_none {l : List String} {x : String} (h : x ∉ l) :
    index_of l x = none := by
  induction l with
  | nil => rfl
  | cons y ys ih =>
    rw [List.mem_cons, not_or] at h
    simp [index_of, Ne.symm h.1, ih h.2]

/-- C1: an item with no outgoing dependency edges is never blocked; with at
least one edge, the item is unblocked exactly when every dependency target
exists in the item table with status "Done", and blocked exactly when some
target is missing or has a status other than "Done". -/
theorem item_is_blocked_spec (s : Store) (iid : String) :
    (outgoing s iid = ∅ → item_is_blocked s iid = false) ∧
    (outgoing s iid ≠ ∅ →
      ((item_is_blocked s iid = false ↔
          ∀ d, (iid, d) ∈ s.item_dependencies →
            ∃ it, dget s.items d = some it ∧ it.status = "Done") ∧
       (item_is_blocked s iid = true ↔
          ∃ d, (iid, d) ∈ s.item_dependencies ∧
            (dget s.items d = none ∨
              ∃ it, dget s.items d = some it ∧ it.status ≠ "Done")))) := by
  constructor
  · intro h
    simp [item_is_blocked, h]
  · intro h
    have hb := blocked_exists_unsat s iid h
    constructor
    · rw [Bool.eq_false_iff, ne_eq, hb]
      push_neg
      simp only [ne_eq, Bool.not_eq_true, dep_satisfied_iff]
    · rw [hb]
      simp only [dep_unsatisfied_iff]

/-- C1 witness: in the sample store, item x has no outgoing edges and is not
blocked; item y has one edge whose target x is Done, so y is not blocked. -/
theorem item_is_blocked_spec_witness :
    item_is_blocked sampleStore "x" = false ∧
    item_is_blocked sampleStore "y" = false := by
  constructor
  · exact (item_is_blocked_spec sampleStore "x").1 (by decide)
  · refine ((item_is_blocked_spec sampleStore "y").2 (by decide)).1.mpr ?_
    intro d hd
    have hdx : d = "x" := by
      have : (("y", d) : String × String) ∈ ({("y", "x")} : Finset (String × String)) := hd
      have h2 := Finset.mem_singleton.mp this
      exact congrArg Prod.snd h2
    subst hdx
    exact ⟨mkItem "x" "b1" "Done" none none none none, by decide, rfl⟩

/-- C2: the normalized schedule takes start and end through the fallback
chains, copies a present endpoint over a missing one, and returns
max(1, (end - start).days + 1); the duration is never below 1, and with all
four date fields absent it is exactly 1; purity holds by construction, the
function being a map from an item value to an integer. -/
theorem item_effort_days_spec (it : Item) :
    1 ≤ item_effort_days it ∧
    (it.timeline_start = none ∧ it.start_date = none ∧ it.due_date = none ∧
        it.timeline_end = none → item_effort_days it = 1) ∧
    (∀ s e, rawStart it = some s → rawEnd it = some e →
      item_effort_days it = max 1 ((e - s) + 1)) ∧
    (∀ s, rawStart it = some s → rawEnd it = none → item_effort_days it = 1) ∧
    (∀ e, rawStart it = none → rawEnd it = some e → item_effort_days it = 1) ∧
    (rawStart it = none → rawEnd it = none → item_effort_days it = 1) := by
  refine ⟨?_, ?_, ?_, ?_, ?_, ?_⟩
  · cases hs : rawStart it <;> cases he : rawEnd it <;>
      simp [item_effort_days, hs, he, le_max_left]
  · rintro ⟨h1, h2, h3, h4⟩
    simp [item_effort_days, rawStart, rawEnd, pyOr, h1, h2, h3, h4]
  · intro s e hs he
    simp [item_effort_days, hs, he]
  · intro s hs he
    simp [item_effort_days, hs, he]
  · intro e hs he
    simp [item_effort_days, hs, he]
  · intro hs he
    simp [item_effort_days, hs, he]

/-- C2 witness: an item with start date 10 and due date 12 and no timeline
fields has effective duration max(1, 12 - 10 + 1) = 3, and an item with all
four date fields absent has duration 1. -/
theorem item_effort_days_spec_witness :
    item_effort_days (mkItem "z" "b1" "Done" (some 10) (some 12) none none) =
      max 1 ((12 - 10) + 1) ∧
    item_effort_days (mkItem "w" "b1" "Done" none none none none) = 1 := by
  constructor
  · exact (item_effort_days_spec
      (mkItem "z" "b1" "Done" (some 10) (some 12) none none)).2.2.1 10 12 rfl rfl
  · exact (item_effort_days_spec
      (mkItem "w" "b1" "Done" none none none none)).2.1 ⟨rfl, rfl, rfl, rfl⟩

/-- C10: next_status is defined exactly on the four statuses of the cycle,
returning a member of the cycle there, and signals an error (ValueError
from list.index, modelled as none) on every other string. -/
theorem next_status_domain :
    (∀ stat ∈ STATUS_CHOICES,
      ∃ r, next_status stat = some r ∧ r ∈ STATUS_CHOICES) ∧
    (∀ stat, stat ∉ STATUS_CHOICES → next_status stat = none) := by
  constructor
  · intro stat hstat
    fin_cases hstat
    · exact ⟨"In progress", by decide, by decide⟩
    · exact ⟨"Blocked", by decide, by decide⟩
    · exact ⟨"Done", by decide, by decide⟩
    · exact ⟨"Not started", by decide, by decide⟩
  · intro stat hstat
    simp [next_status, index_of_eq_none hstat]

/-- C10 witness: "Done" maps into the cycle, "Banana" is rejected. -/
theorem next_status_domain_witness :
    (∃ r, next_status "Done" = some r ∧ r ∈ STATUS_CHOICES) ∧
    next_status "Banana" = none :=
  ⟨next_status_domain.1 "Done" (by decide),
   next_status_domain.2 "Banana" (by decide)⟩

theorem dget_filter_self {α : Type} (l : List (String × α)) (x : String) :
    dget (l.filter (fun p => p.1 ≠ x)) x = none := by
  induction l with
  | nil => rfl
  | cons e rest ih =>
    rw [List.filter_cons]
    by_cases h : e.1 = x
    · rw [if_neg (by simp [h])]
      exact ih
    · rw [if_pos (by simp [h])]
      simp only [dget]
      rw [if_neg h]
      exact ih

/-- C3: deleting item x removes, in one step, x from the item table, every
assignment tuple of x, and every dependency edge mentioning x in either
direction, while preserving every tuple not mentioning x and every other
entity table. -/
theorem delete_item_spec (s : Store) (x : String) :
    (∀ m, (x, m) ∉ (delete_item s x).item_assignments) ∧
    (∀ j, (x, j) ∉ (delete_item s x).item_dependencies) ∧
    (∀ j, (j, x) ∉ (delete_item s x).item_dependencies) ∧
    (∀ p ∈ s.item_assignments, p.1 ≠ x →
      p ∈ (delete_item s x).item_assignments) ∧
    (∀ p ∈ s.item_dependencies, p.1 ≠ x → p.2 ≠ x →
      p ∈ (delete_item s x).item_dependencies) ∧
    (delete_item s x).team_members = s.team_members ∧
    (delete_item s x).boards = s.boards ∧
    (delete_item s x).groups = s.groups ∧
    (∀ p ∈ s.items, p.1 ≠ x → p ∈ (delete_item s x).items) ∧
    dget (delete_item s x).items x = none := by
  refine ⟨?_, ?_, ?_, ?_, ?_, rfl, rfl, rfl, ?_, ?_⟩
  · intro m
    simp [delete_item, Finset.mem_filter]
  · intro j
    simp [delete_item, Finset.mem_filter]
  · intro j
    simp [delete_item, Finset.mem_filter]
  · intro p hp hne
    exact Finset.mem_filter.mpr ⟨hp, hne⟩
  · intro p hp h1 h2
    exact Finset.mem_filter.mpr ⟨hp, h1, h2⟩
  · intro p hp hne
    simp only [delete_item, List.mem_filter]
    exact ⟨hp, by simpa using hne⟩
  · exact dget_filter_self s.items x

/-- C3 witness: deleting item y from the sample store removes its
assignment tuple and its dependency edge, and keeps the assignment tuple of
item x. -/
theorem delete_item_spec_witness :
    ("y", "m1") ∉ (delete_item sampleStore "y").item_assignments ∧
    ("y", "x") ∉ (delete_item sampleStore "y").item_dependencies ∧
    ("x", "m1") ∈ (delete_item sampleStore "y").item_assignments := by
  refine ⟨(delete_item_spec sampleStore "y").1 "m1",
    (delete_item_spec sampleStore "y").2.1 "x", ?_⟩
  exact (delete_item_spec sampleStore "y").2.2.2.1 ("x", "m1")
    (by decide) (by decide)

theorem overlap_days_eq_spec (today wstart wend : Date) (it : Item) :
    overlap_days today wstart wend it = overlapDaysSpec today wstart wend it := by
  rcases hse : item_window today it with ⟨a, b⟩
  simp only [overlap_days, overlapDaysSpec, hse]
  by_cases h : max a wstart ≤ min b wend
  · rw [if_pos h]
  · rw [if_neg h]
    have h3 : min b wend < max a wstart := lt_of_not_le h
    have h4 : min b wend + 1 ≤ max a wstart := Int.lt_iff_add_one_le.mp h3
    have h2 : min b wend - max a wstart + 1 ≤ 0 := by linarith
    rw [max_self, max_eq_left h2]

/-- C4: for a window with window_start <= window_end the workload rows
assign to every team member the sum, over the board items assigned to that
member, of max(0, (min(item_end, window_end) - max(item_start,
window_start)).days + 1); an item whose clipped start exceeds its clipped
end contributes 0; an item with no date information gets the range
collapsed to today; a member with no overlapping item still gets a row with
value 0. -/
theorem workload_per_member_formula (s : Store) (today : Date) (bid : String)
    (wstart wend : Date) (h : wstart ≤ wend) :
    workload s today bid wstart wend =
      Except.ok (s.team_members.map (fun p =>
        (p.2.name,
          ((board_items s bid).filter
              (fun it => (it.id, p.1) ∈ s.item_assignments)).foldl
            (fun load it => load + overlapDaysSpec today wstart wend it) 0))) ∧
    (∀ it, max (item_window today it).1 wstart > min (item_window today it).2 wend →
      overlap_days today wstart wend it = 0) ∧
    (∀ it, it.timeline_start = none → it.start_date = none → it.due_date = none →
      it.timeline_end = none → item_window today it = (today, today)) ∧
    (∀ uid, (∀ it ∈ board_items s bid, (it.id, uid) ∉ s.item_assignments) →
      member_load s today wstart wend (board_items s bid) uid = 0) := by
  refine ⟨?_, ?_, ?_, ?_⟩
  · have hfun : (fun (load : Int) (it : Item) =>
        load + overlap_days today wstart wend it) =
        (fun load it => load + overlapDaysSpec today wstart wend it) := by
      funext load it
      rw [overlap_days_eq_spec]
    simp only [workload, if_neg (not_lt.mpr h), member_load, hfun]
  · intro it hgt
    rcases hse : item_window today it with ⟨a, b⟩
    rw [hse] at hgt
    simp only [overlap_days, hse]
    rw [if_neg (not_le.mpr hgt)]
    exact max_self 0
  · intro it h1 h2 h3 h4
    simp [item_window, rawStart, rawEnd, pyOr, h1, h2, h3, h4]
  · intro uid hall
    unfold member_load
    rw [List.filter_eq_nil_iff.mpr (by simpa using hall)]
    rfl

/-- C4 witness: window [1, 10], member Alice assigned to item y with
effective range (5, 20) and to the dateless item x (collapsed to day 100):
y overlaps on days 5 to 10 giving 6, x contributes 0, total 6. -/
theorem workload_per_member_formula_witness :
    workload sampleStore 100 "b1" 1 10 = Except.ok [("Alice", 6)] := by
  have h := (workload_per_member_formula sampleStore 100 "b1" 1 10 (by decide)).1
  rw [h]
  rfl

/-- C5: next_status walks the fixed cycle [Not started, In progress,
Blocked, Done] with wraparound, and the Kanban gate disables a move exactly
when the item is blocked and the next status in the cycle is "In progress"
or "Done"; a move whose next status is "Blocked" or "Not started" is always
enabled. -/
theorem status_cycle_and_gate :
    next_status "Not started" = some "In progress" ∧
    next_status "In progress" = some "Blocked" ∧
    next_status "Blocked" = some "Done" ∧
    next_status "Done" = some "Not started" ∧
    (∀ s iid lane, lane ∈ STATUS_CHOICES →
      (move_disabled s iid lane = true ↔
        (item_is_blocked s iid = true ∧
          (next_status lane = some "In progress" ∨
           next_status lane = some "Done")))) ∧
    (∀ s iid lane,
      next_status lane = some "Blocked" ∨ next_status lane = some "Not started" →
      move_disabled s iid lane = false) := by
  refine ⟨by decide, by decide, by decide, by decide, ?_, ?_⟩
  · intro s iid lane _
    simp [move_disabled]
  · intro s iid lane hl
    rcases hl with hl | hl <;> simp [move_disabled, hl]

/-- C5 witness: in the store where x depends on a non-Done item, the move
out of the Blocked lane (next status Done) is disabled for x, while the
move out of the In progress lane (next status Blocked) stays enabled. -/
theorem status_cycle_and_gate_witness :
    move_disabled blockedStore "x" "Blocked" = true ∧
    move_disabled blockedStore "x" "In progress" = false := by
  constructor
  · exact (status_cycle_and_gate.2.2.2.2.1 blockedStore "x" "Blocked"
      (by decide)).mpr ⟨by decide, Or.inr (by decide)⟩
  · exact status_cycle_and_gate.2.2.2.2.2 blockedStore "x" "In progress"
      (Or.inl (by decide))

/-- C6: an inverted window makes the aggregator surface an explicit failure
and perform no per-member computation; a well-formed window produces one
row per team member. -/
theorem workload_invalid_range (s : Store) (today : Date) (bid : String)
    (wstart wend : Date) :
    (wstart > wend →
      workload s today bid wstart wend =
        Except.error "Start must be before end.") ∧
    (wstart ≤ wend →
      ∃ rows, workload s today bid wstart wend = Except.ok rows ∧
        rows.length = s.team_members.length) := by
  constructor
  · intro h
    simp [workload, h]
  · intro h
    refine ⟨s.team_members.map (fun p =>
      (p.2.name, member_load s today wstart wend (board_items s bid) p.1)),
      ?_, ?_⟩
    · simp only [workload, if_neg (not_lt.mpr h)]
    · simp

/-- C6 witness: the window [11, 10] is rejected with the explicit failure
and the window [1, 10] computes rows. -/
theorem workload_invalid_range_witness :
    workload sampleStore 100 "b1" 11 10 =
      Except.error "Start must be before end." :=
  (workload_invalid_range sampleStore 100 "b1" 11 10).1 (by decide)

/-- C7 counterexample: the claim is false on the code: assigning to the
nonexistent item id "ghost" silently succeeds, inserting the tuple into the
assignment relation, instead of surfacing an InvalidReference error (the
operation has no error outcome at all). -/
theorem assign_missing_item_counterexample :
    dget emptyStore.items "ghost" = none ∧
    ("ghost", "m1") ∈ (assign emptyStore "ghost" "m1").item_assignments :=
  ⟨rfl, Finset.mem_insert_self _ _⟩

/-- C7 amended: the mutating operations assign and dep_add perform no
existence checks and surface no error: they insert their tuple
unconditionally (dep_add skipping only self-loops) while leaving the entity
tables untouched; the only fail-safe treatment of a missing id is the
dependency resolver reporting an item blocked when a dependency target is
missing from the item table. -/
theorem unchecked_mutators (s : Store) (iid uid did : String) :
    (iid, uid) ∈ (assign s iid uid).item_assignments ∧
    (assign s iid uid).items = s.items ∧
    (assign s iid uid).team_members = s.team_members ∧
    (iid ≠ did → (iid, did) ∈ (dep_add s iid did).item_dependencies) ∧
    (∀ d, (iid, d) ∈ s.item_dependencies → dget s.items d = none →
      item_is_blocked s iid = true) := by
  refine ⟨Finset.mem_insert_self _ _, rfl, rfl, ?_, ?_⟩
  · intro h
    simp [dep_add, h]
  · intro d hmem hnone
    have hdin : (iid, d) ∈ outgoing s iid :=
      Finset.mem_filter.mpr ⟨hmem, rfl⟩
    have hne : outgoing s iid ≠ ∅ := Finset.ne_empty_of_mem hdin
    rw [blocked_exists_unsat s iid hne]
    refine ⟨d, hmem, ?_⟩
    simp [dep_unsatisfied, hnone]

/-- C7 witness for the amended claim: assigning to the unknown id "ghost"
inserts the tuple, adding a dependency on an unknown target inserts the
edge, and the resolver reports the dependent item blocked when the target
is missing. -/
theorem unchecked_mutators_witness :
    ("ghost", "m9") ∈ (assign sampleStore "ghost" "m9").item_assignments ∧
    ("a", "b") ∈ (dep_add sampleStore "a" "b").item_dependencies ∧
    item_is_blocked missingDepStore "x" = true := by
  refine ⟨(unchecked_mutators sampleStore "ghost" "m9" "z").1, ?_, ?_⟩
  · exact (unchecked_mutators sampleStore "a" "u" "b").2.2.2.1 (by decide)
  · exact (unchecked_mutators missingDepStore "x" "u" "z").2.2.2.2 "ghost"
      (by decide) (by decide)

/-- C8: dep_add with equal endpoints is a silent no-op leaving the whole
store unchanged; with distinct endpoints it is a set insert touching only
the dependency relation, and inserting an edge already present leaves the
store unchanged (idempotence). -/
theorem dep_add_spec (s : Store) (i d : String) :
    dep_add s i i = s ∧
    (i ≠ d →
      (dep_add s i d).item_dependencies = insert (i, d) s.item_dependencies ∧
      (dep_add s i d).item_assignments = s.item_assignments ∧
      (dep_add s i d).items = s.items ∧
      (dep_add s i d).team_members = s.team_members ∧
      (dep_add s i d).boards = s.boards ∧
      (dep_add s i d).groups = s.groups) ∧
    ((i, d) ∈ s.item_dependencies → dep_add s i d = s) := by
  refine ⟨?_, ?_, ?_⟩
  · simp [dep_add]
  · intro h
    simp [dep_add, h]
  · intro hmem
    by_cases h : i = d
    · subst h
      simp [dep_add]
    · have hins : insert (i, d) s.item_dependencies = s.item_dependencies :=
        Finset.insert_eq_self.mpr hmem
      simp [dep_add, h, hins]

/-- C8 witness: a self-loop on q is a no-op, and re-adding the already
present edge (y, x) leaves the sample store unchanged. -/
theorem dep_add_spec_witness :
    dep_add sampleStore "q" "q" = sampleStore ∧
    dep_add sampleStore "y" "x" = sampleStore :=
  ⟨(dep_add_spec sampleStore "q" "q").1,
   (dep_add_spec sampleStore "y" "x").2.2 (by decide)⟩

theorem parse_date_field_eq (v : Option Date) : parse_date_field v = v := by
  cases v <;> rfl

theorem import_item_eq (it : Item) : import_item it = it := by
  simp [import_item, parse_date_field_eq]

/-- C9: exporting the snapshot (under any enumeration order of the two
relation sets) and importing it reconstructs the store exactly: the same
four entity tables, the date fields of every item included, and the same
relation membership. -/
theorem export_import_round_trip (s : Store) (aL dL : List (String × String))
    (ha : aL.toFinset = s.item_assignments)
    (hd : dL.toFinset = s.item_dependencies) :
    import_blob (export_blob s aL dL) = s := by
  have hmap : ∀ L : List (String × String),
      (L.map (fun p => [p.1, p.2])).map list_to_pair = L := by
    intro L
    rw [List.map_map]
    have hid : (list_to_pair ∘ fun p : String × String => [p.1, p.2]) = id := by
      funext p
      rfl
    rw [hid, List.map_id]
  have hitems : ∀ L : List (String × Item),
      L.map (fun p => (p.1, import_item p.2)) = L := by
    intro L
    have hid : (fun p : String × Item => (p.1, import_item p.2)) = id := by
      funext p
      rw [import_item_eq]
      exact Prod.mk.eta
    rw [hid, List.map_id]
  obtain ⟨tm, bs, gs, its, asg, dep⟩ := s
  dsimp only [import_blob, export_blob]
  congr 1
  · exact hitems its
  · rw [hmap aL]
    exact ha
  · rw [hmap dL]
    exact hd

/-- C9 witness: round-tripping the sample store through export and import,
with the assignment list enumerated in either order, reconstructs it. -/
theorem export_import_round_trip_witness :
    import_blob (export_blob sampleStore
      [("x", "m1"), ("y", "m1")] [("y", "x")]) = sampleStore :=
  export_import_round_trip sampleStore [("x", "m1"), ("y", "m1")] [("y", "x")]
    (by decide) (by decide)

end TeamBoards
